import Mathlib

/-!
# Verification of the Intel 8080 disassembler core

A shallow embedding of `src/main.rs`: the opcode table (the exhaustive
`match` on the first byte), the cursor-driven decode loop over the byte
image, and the line formatting (including the ANSI color escape
sequences the program interleaves with the text it prints).

Bytes are embedded as `Nat`; the Rust `u8` domain is recovered by the
hypothesis `b < 256` where it matters.  The Rust `match` on a `u8` is
exhaustive with `0xFF` as its final arm; the embedding renders that
final arm as the catch-all of a `Nat` match.
-/

set_option maxRecDepth 10000

/-! ## Color escape constants (`main.rs` lines 16-21) -/

def COLOR_RESET : String := "\x1b[0m"

def COLOR_BOLD : String := "\x1b[1m"

def COLOR_RED : String := "\x1b[31m"

def COLOR_BLUE : String := "\x1b[34m"

def COLOR_PURPLE : String := "\x1b[35m"

def COLOR_GRAY : String := "\x1b[37m"

/-! ## Lowercase hex rendering, mirroring Rust `{:02x}` / `{:04x}`
(zero padding to a *minimum* width; wider values keep all digits). -/

/-- Hex digit list of `n` (most significant first), computed with
explicit fuel so that the definition reduces in the kernel.  The fuel
`n + 1` always suffices, since `n` has at most `n + 1` hex digits. -/
def hexCharsAux (fuel n : Nat) : List Char :=
  match fuel with
  | 0 => []
  | fuel + 1 =>
    if n < 16 then [Nat.digitChar n]
    else hexCharsAux fuel (n / 16) ++ [Nat.digitChar (n % 16)]

/-- The lowercase hex digits of `n`, most significant first. -/
def hexChars (n : Nat) : List Char := hexCharsAux (n + 1) n

/-- Left-pad a character list with zeroes to a minimum width `w`. -/
def padZeroes (w : Nat) (s : List Char) : List Char :=
  List.replicate (w - s.length) '0' ++ s

/-- Rust `format!("{:0wx}", n)`: lowercase hex, zero padded to minimum
width `w`. -/
def hexPad (w n : Nat) : String := String.mk (padZeroes w (hexChars n))

/-- Rust `{:02x}`. -/
def hex2 (n : Nat) : String := hexPad 2 n

/-- Rust `{:04x}`. -/
def hex4 (n : Nat) : String := hexPad 4 n

/-- Characters allowed in a lowercase hex dump. -/
def isLowerHexDigit (c : Char) : Bool := "0123456789abcdef".data.contains c

/-! ## The opcode table (`main.rs` lines 58-303)

The Rust source is a single exhaustive `match first_byte` over `u8`
(no `_` fallback arm); `opcodeEntries` lists its 256 entries
`(instruction_length, text, additional_text)` in opcode order
0x00-0xFF, one entry per byte value, with the `0x00 | 0x08 | ...`,
`0xC3 | 0xCB`, `0xC9 | 0xD9` and `0xCD | 0xDD | 0xED | 0xFD`
alias groups expanded to their positions. -/

def opcodeEntries : List (Nat × String × String) := [
  (1, "NOP", ""),  -- 0x00
  (3, "LXI", "B"),  -- 0x01
  (1, "STAX", "B"),  -- 0x02
  (1, "INX", "B"),  -- 0x03
  (1, "INR", "B"),  -- 0x04
  (1, "DCR", "B"),  -- 0x05
  (2, "MVI", "B"),  -- 0x06
  (1, "RLC", ""),  -- 0x07
  (1, "NOP", ""),  -- 0x08
  (1, "DAB", "D"),  -- 0x09
  (1, "LDAX", "B"),  -- 0x0A
  (1, "DCX", "B"),  -- 0x0B
  (1, "INR", "C"),  -- 0x0C
  (1, "DCR", "C"),  -- 0x0D
  (2, "MVI", "C"),  -- 0x0E
  (1, "RRC", ""),  -- 0x0F
  (1, "NOP", ""),  -- 0x10
  (3, "LXI", "D"),  -- 0x11
  (1, "STAX", "D"),  -- 0x12
  (1, "INX", "D"),  -- 0x13
  (1, "INR", "D"),  -- 0x14
  (1, "DCR", "D"),  -- 0x15
  (2, "MVI", "D"),  -- 0x16
  (1, "RAL", ""),  -- 0x17
  (1, "NOP", ""),  -- 0x18
  (1, "DAD", "D"),  -- 0x19
  (1, "LDAX", "D"),  -- 0x1A
  (1, "DCX", "D"),  -- 0x1B
  (1, "INR", "E"),  -- 0x1C
  (1, "DCR", "E"),  -- 0x1D
  (2, "MVI", "E"),  -- 0x1E
  (1, "RAR", ""),  -- 0x1F
  (1, "NOP", ""),  -- 0x20
  (3, "LXI", "H"),  -- 0x21
  (3, "SHLD", ""),  -- 0x22
  (1, "INX", "H"),  -- 0x23
  (1, "INR", "H"),  -- 0x24
  (1, "DCR", "H"),  -- 0x25
  (2, "MVI", "H"),  -- 0x26
  (1, "DAA", ""),  -- 0x27
  (1, "NOP", ""),  -- 0x28
  (1, "DAD", "H"),  -- 0x29
  (3, "LHLD", ""),  -- 0x2A
  (1, "DCX", "H"),  -- 0x2B
  (1, "INR", "L"),  -- 0x2C
  (1, "DCR", "L"),  -- 0x2D
  (2, "MVI", "L"),  -- 0x2E
  (1, "CMA", ""),  -- 0x2F
  (1, "NOP", ""),  -- 0x30
  (3, "LXI", "SP"),  -- 0x31
  (3, "STA", ""),  -- 0x32
  (1, "INX", "SP"),  -- 0x33
  (1, "INR", "M"),  -- 0x34
  (1, "DCR", "M"),  -- 0x35
  (2, "MVI", "M"),  -- 0x36
  (1, "STC", ""),  -- 0x37
  (1, "NOP", ""),  -- 0x38
  (1, "DAD", "SP"),  -- 0x39
  (3, "LDA", ""),  -- 0x3A
  (1, "DCX", "SP"),  -- 0x3B
  (1, "INR", "A"),  -- 0x3C
  (1, "DCR", "A"),  -- 0x3D
  (2, "MVI", "A"),  -- 0x3E
  (1, "CMC", ""),  -- 0x3F
  (1, "MOV", "B,B"),  -- 0x40
  (1, "MOV", "B,C"),  -- 0x41
  (1, "MOV", "B,D"),  -- 0x42
  (1, "MOV", "B,E"),  -- 0x43
  (1, "MOV", "B,H"),  -- 0x44
  (1, "MOV", "B,L"),  -- 0x45
  (1, "MOV", "B,M"),  -- 0x46
  (1, "MOV", "B,A"),  -- 0x47
  (1, "MOV", "C,B"),  -- 0x48
  (1, "MOV", "C,C"),  -- 0x49
  (1, "MOV", "C,D"),  -- 0x4A
  (1, "MOV", "C,E"),  -- 0x4B
  (1, "MOV", "C,H"),  -- 0x4C
  (1, "MOV", "C,L"),  -- 0x4D
  (1, "MOV", "C,M"),  -- 0x4E
  (1, "MOV", "C,A"),  -- 0x4F
  (1, "MOV", "D,B"),  -- 0x50
  (1, "MOV", "D,C"),  -- 0x51
  (1, "MOV", "D,D"),  -- 0x52
  (1, "MOV", "D,E"),  -- 0x53
  (1, "MOV", "D,H"),  -- 0x54
  (1, "MOV", "D,L"),  -- 0x55
  (1, "MOV", "D,M"),  -- 0x56
  (1, "MOV", "D,A"),  -- 0x57
  (1, "MOV", "E,B"),  -- 0x58
  (1, "MOV", "E,C"),  -- 0x59
  (1, "MOV", "E,D"),  -- 0x5A
  (1, "MOV", "E,E"),  -- 0x5B
  (1, "MOV", "E,H"),  -- 0x5C
  (1, "MOV", "E,L"),  -- 0x5D
  (1, "MOV", "E,M"),  -- 0x5E
  (1, "MOV", "E,A"),  -- 0x5F
  (1, "MOV", "H,B"),  -- 0x60
  (1, "MOV", "H,C"),  -- 0x61
  (1, "MOV", "H,D"),  -- 0x62
  (1, "MOV", "H,E"),  -- 0x63
  (1, "MOV", "H,H"),  -- 0x64
  (1, "MOV", "H,L"),  -- 0x65
  (1, "MOV", "H,M"),  -- 0x66
  (1, "MOV", "H,A"),  -- 0x67
  (1, "MOV", "L,B"),  -- 0x68
  (1, "MOV", "L,C"),  -- 0x69
  (1, "MOV", "L,D"),  -- 0x6A
  (1, "MOV", "L,E"),  -- 0x6B
  (1, "MOV", "L,H"),  -- 0x6C
  (1, "MOV", "L,L"),  -- 0x6D
  (1, "MOV", "L,M"),  -- 0x6E
  (1, "MOV", "L,A"),  -- 0x6F
  (1, "MOV", "M,B"),  -- 0x70
  (1, "MOV", "M,C"),  -- 0x71
  (1, "MOV", "M,D"),  -- 0x72
  (1, "MOV", "M,E"),  -- 0x73
  (1, "MOV", "M,H"),  -- 0x74
  (1, "MOV", "M,L"),  -- 0x75
  (1, "HLT", ""),  -- 0x76
  (1, "MOV", "M,A"),  -- 0x77
  (1, "MOV", "A,B"),  -- 0x78
  (1, "MOV", "A,C"),  -- 0x79
  (1, "MOV", "A,D"),  -- 0x7A
  (1, "MOV", "A,E"),  -- 0x7B
  (1, "MOV", "A,H"),  -- 0x7C
  (1, "MOV", "A,L"),  -- 0x7D
  (1, "MOV", "A,M"),  -- 0x7E
  (1, "MOV", "A,A"),  -- 0x7F
  (1, "ADD", "B"),  -- 0x80
  (1, "ADD", "C"),  -- 0x81
  (1, "ADD", "D"),  -- 0x82
  (1, "ADD", "E"),  -- 0x83
  (1, "ADD", "H"),  -- 0x84
  (1, "ADD", "L"),  -- 0x85
  (1, "ADD", "M"),  -- 0x86
  (1, "ADD", "A"),  -- 0x87
  (1, "ADC", "B"),  -- 0x88
  (1, "ADC", "C"),  -- 0x89
  (1, "ADC", "D"),  -- 0x8A
  (1, "ADC", "E"),  -- 0x8B
  (1, "ADC", "H"),  -- 0x8C
  (1, "ADC", "L"),  -- 0x8D
  (1, "ADC", "M"),  -- 0x8E
  (1, "ADC", "A"),  -- 0x8F
  (1, "SUB", "B"),  -- 0x90
  (1, "SUB", "C"),  -- 0x91
  (1, "SUB", "D"),  -- 0x92
  (1, "SUB", "E"),  -- 0x93
  (1, "SUB", "H"),  -- 0x94
  (1, "SUB", "L"),  -- 0x95
  (1, "SUB", "M"),  -- 0x96
  (1, "SUB", "A"),  -- 0x97
  (1, "SBB", "B"),  -- 0x98
  (1, "SBB", "C"),  -- 0x99
  (1, "SBB", "D"),  -- 0x9A
  (1, "SBB", "E"),  -- 0x9B
  (1, "SBB", "H"),  -- 0x9C
  (1, "SBB", "L"),  -- 0x9D
  (1, "SBB", "M"),  -- 0x9E
  (1, "SBB", "A"),  -- 0x9F
  (1, "ANA", "B"),  -- 0xA0
  (1, "ANA", "C"),  -- 0xA1
  (1, "ANA", "D"),  -- 0xA2
  (1, "ANA", "E"),  -- 0xA3
  (1, "ANA", "H"),  -- 0xA4
  (1, "ANA", "L"),  -- 0xA5
  (1, "ANA", "M"),  -- 0xA6
  (1, "ANA", "A"),  -- 0xA7
  (1, "XRA", "B"),  -- 0xA8
  (1, "XRA", "C"),  -- 0xA9
  (1, "XRA", "D"),  -- 0xAA
  (1, "XRA", "E"),  -- 0xAB
  (1, "XRA", "H"),  -- 0xAC
  (1, "XRA", "L"),  -- 0xAD
  (1, "XRA", "M"),  -- 0xAE
  (1, "XRA", "A"),  -- 0xAF
  (1, "ORA", "B"),  -- 0xB0
  (1, "ORA", "C"),  -- 0xB1
  (1, "ORA", "D"),  -- 0xB2
  (1, "ORA", "E"),  -- 0xB3
  (1, "ORA", "H"),  -- 0xB4
  (1, "ORA", "L"),  -- 0xB5
  (1, "ORA", "M"),  -- 0xB6
  (1, "ORA", "A"),  -- 0xB7
  (1, "CMP", "B"),  -- 0xB8
  (1, "CMP", "C"),  -- 0xB9
  (1, "CMP", "D"),  -- 0xBA
  (1, "CMP", "E"),  -- 0xBB
  (1, "CMP", "H"),  -- 0xBC
  (1, "CMP", "L"),  -- 0xBD
  (1, "CMP", "M"),  -- 0xBE
  (1, "CMP", "A"),  -- 0xBF
  (1, "RNZ", ""),  -- 0xC0
  (1, "POP", "B"),  -- 0xC1
  (3, "JNZ", ""),  -- 0xC2
  (3, "JMP", ""),  -- 0xC3
  (3, "CNZ", ""),  -- 0xC4
  (1, "PUSH", "B"),  -- 0xC5
  (2, "ADI", ""),  -- 0xC6
  (1, "RST", "0"),  -- 0xC7
  (1, "RZ", ""),  -- 0xC8
  (1, "RET", ""),  -- 0xC9
  (3, "JZ", ""),  -- 0xCA
  (3, "JMP", ""),  -- 0xCB
  (3, "CZ", ""),  -- 0xCC
  (3, "CALL", ""),  -- 0xCD
  (2, "ACI", ""),  -- 0xCE
  (1, "RST", "1"),  -- 0xCF
  (1, "RNC", ""),  -- 0xD0
  (1, "POP", "D"),  -- 0xD1
  (3, "JNC", ""),  -- 0xD2
  (2, "OUT", ""),  -- 0xD3
  (3, "CNC", ""),  -- 0xD4
  (1, "PUSH", "D"),  -- 0xD5
  (2, "SUI", ""),  -- 0xD6
  (1, "RST", "2"),  -- 0xD7
  (1, "RC", ""),  -- 0xD8
  (1, "RET", ""),  -- 0xD9
  (3, "JC", ""),  -- 0xDA
  (2, "IN", ""),  -- 0xDB
  (3, "CC", ""),  -- 0xDC
  (3, "CALL", ""),  -- 0xDD
  (2, "SBI", ""),  -- 0xDE
  (1, "RST", "3"),  -- 0xDF
  (1, "RPO", ""),  -- 0xE0
  (1, "POP", "H"),  -- 0xE1
  (3, "JPO", ""),  -- 0xE2
  (1, "XTHL", ""),  -- 0xE3
  (3, "CPO", ""),  -- 0xE4
  (1, "PUSH", "H"),  -- 0xE5
  (2, "ANI", ""),  -- 0xE6
  (1, "RST", "4"),  -- 0xE7
  (1, "RPE", ""),  -- 0xE8
  (1, "PCHL", ""),  -- 0xE9
  (3, "JPE", ""),  -- 0xEA
  (1, "XCHG", ""),  -- 0xEB
  (3, "CPE", ""),  -- 0xEC
  (3, "CALL", ""),  -- 0xED
  (2, "XRI", ""),  -- 0xEE
  (1, "RST", "5"),  -- 0xEF
  (1, "RP", ""),  -- 0xF0
  (1, "POP", "PSW"),  -- 0xF1
  (3, "JP", ""),  -- 0xF2
  (1, "DI", ""),  -- 0xF3
  (3, "CP", ""),  -- 0xF4
  (1, "PUSH", "PSW"),  -- 0xF5
  (2, "ORI", ""),  -- 0xF6
  (1, "RST", "6"),  -- 0xF7
  (1, "RM", ""),  -- 0xF8
  (1, "SPHL", ""),  -- 0xF9
  (3, "JM", ""),  -- 0xFA
  (1, "EI", ""),  -- 0xFB
  (3, "CM", ""),  -- 0xFC
  (3, "CALL", ""),  -- 0xFD
  (2, "CPI", ""),  -- 0xFE
  (1, "RST", "7")]  -- 0xFF

/-- Table lookup: total on the `u8` domain `first_byte < 256`.  The
default argument of `getD` is returned only for `first_byte` at 256 or
above, outside the `u8` domain of the Rust `match`. -/
def opcodeTable (first_byte : Nat) : Nat × String × String :=
  opcodeEntries.getD first_byte (1, "NOP", "")

/-! ## Decode outcomes

One `Item` per iteration of the `while let` loop in `main` (lines
54-368): a fully decoded instruction, or the truncation failure raised
when a required trailing byte is missing (lines 305-335), which aborts
the program and is therefore always the last item. -/

inductive Item where
  /-- A fully decoded instruction: address, opcode byte, the consumed
  trailing bytes, and the `(instruction_length, text, additional_text)`
  data of its table entry. -/
  | record (address first_byte : Nat) (second_byte third_byte : Option Nat)
      (instruction_length : Nat) (text additional_text : String)
  /-- `error!(exitcode::DATAERR, ...)` fired while reading the
  `missing`-th byte (2 or 3) of the instruction at `address`;
  `second_byte` holds the byte already consumed when the third was the
  one missing. -/
  | truncated (address first_byte : Nat) (second_byte : Option Nat) (missing : Nat)
deriving DecidableEq

/-- Address of the opcode byte (the `enumerate` index at which the
loop iteration started). -/
def Item.address : Item → Nat
  | .record a _ _ _ _ _ _ => a
  | .truncated a _ _ _ => a

/-- The declared length stored in the item (0 for a truncation). -/
def Item.instructionLength : Item → Nat
  | .record _ _ _ _ len _ _ => len
  | .truncated _ _ _ _ => 0

/-- Is this item a completed instruction? -/
def Item.isRecord : Item → Bool
  | .record _ _ _ _ _ _ _ => true
  | .truncated _ _ _ _ => false

/-! ## The decode loop (`main.rs` lines 53-368)

`rom.iter().enumerate()` yields `(address, byte)` pairs; the loop reads
the opcode, looks it up, and pulls one more byte for
`instruction_length > 1` and another for `instruction_length > 2`,
erroring out if the iterator is exhausted.  The embedding walks the
byte list with the running `enumerate` index as `address`. -/

def decodeLoop : List Nat → Nat → List Item
  | [], _ => []
  | first_byte :: rest, address =>
    if (opcodeTable first_byte).1 > 1 then
      match rest with
      | [] => [Item.truncated address first_byte none 2]
      | second_byte :: rest2 =>
        if (opcodeTable first_byte).1 > 2 then
          match rest2 with
          | [] => [Item.truncated address first_byte (some second_byte) 3]
          | third_byte :: rest3 =>
            Item.record address first_byte (some second_byte) (some third_byte)
                (opcodeTable first_byte).1 (opcodeTable first_byte).2.1
                (opcodeTable first_byte).2.2
              :: decodeLoop rest3 (address + 3)
        else
          Item.record address first_byte (some second_byte) none
              (opcodeTable first_byte).1 (opcodeTable first_byte).2.1
              (opcodeTable first_byte).2.2
            :: decodeLoop rest2 (address + 2)
    else
      Item.record address first_byte none none
          (opcodeTable first_byte).1 (opcodeTable first_byte).2.1
          (opcodeTable first_byte).2.2
        :: decodeLoop rest (address + 1)

/-- One decode pass over the whole image, starting at address 0. -/
def decodePass (rom : List Nat) : List Item := decodeLoop rom 0

/-- The completed instructions of an item sequence. -/
def recordsOf (items : List Item) : List Item := items.filter Item.isRecord

/-- The completed instructions of a full pass. -/
def decodeRecords (rom : List Nat) : List Item := recordsOf (decodePass rom)

/-- Total declared length of a list of items. -/
def sumLengths (items : List Item) : Nat :=
  (items.map Item.instructionLength).sum

/-- The pass ran to the end of the image without a truncation failure. -/
def truncationFree (rom : List Nat) : Prop :=
  ∀ it ∈ decodePass rom, it.isRecord = true

instance (rom : List Nat) : Decidable (truncationFree rom) := by
  unfold truncationFree; infer_instance

/-! ## Operand synthesis and line formatting (`main.rs` lines 337-367)

`additional_bytes_text` is built by a `match instruction_length` whose
`_` arm is `unreachable!()` and whose 2- and 3-byte arms call
`.unwrap()` on the stored option bytes; both panics are embedded as
`none`. -/

/-- `main.rs` lines 342-353.  `none` models a panic: the
`_ => unreachable!()` arm, or `.unwrap()` of a missing byte. -/
def additionalBytesText (instruction_length : Nat) (second_byte third_byte : Option Nat) :
    Option String :=
  match instruction_length with
  | 1 => some ""
  | 2 =>
    match second_byte with
    | some b => some (COLOR_PURPLE ++ "#0x" ++ hex2 b ++ COLOR_RESET)
    | none => none
  | 3 =>
    match third_byte, second_byte with
    | some b3, some b2 => some (COLOR_BLUE ++ "$" ++ hex2 b3 ++ hex2 b2 ++ COLOR_RESET)
    | _, _ => none
  | _ => none

/-- `main.rs` lines 355-359 and 367: the text printed after the tab,
joining `additional_text` and `additional_bytes_text` with a comma
exactly when both are non-empty. -/
def joinOperandText (additional_text additional_bytes_text : String) : String :=
  let comma :=
    if !additional_text.isEmpty && !additional_bytes_text.isEmpty then "," else ""
  additional_text ++ comma ++ additional_bytes_text

/-- `main.rs` lines 361-364. -/
def mnemonicColor (text : String) : String :=
  match text with
  | "NOP" => COLOR_GRAY
  | _ => COLOR_RED

/-- The operand field of an item (everything after the tab), `none` on
a panic of the synthesis step. -/
def Item.operandText : Item → Option String
  | .record _ _ second_byte third_byte instruction_length _ additional_text =>
    (additionalBytesText instruction_length second_byte third_byte).map
      (fun abt => joinOperandText additional_text abt)
  | .truncated _ _ _ _ => none

/-- `n` copies of `s` concatenated, for the padding loop at lines
337-340. -/
def repeatString (n : Nat) (s : String) : String :=
  String.join (List.replicate n s)

/-- Everything `main` prints to stdout for one item, `none` on a panic.
For a record (lines 55, 308, 324, 337-340, 366-367):
address, byte dump with 3-space padding per missing byte, colored
mnemonic, tab, operand text.  For a truncation: the partial line
already printed when the bytes ran out, closed by the `println!()` at
line 311/327. -/
def renderItem : Item → Option String
  | .record address first_byte second_byte third_byte instruction_length text
      additional_text =>
    (additionalBytesText instruction_length second_byte third_byte).map fun abt =>
      hex4 address ++ "  " ++ hex2 first_byte ++ " "
        ++ (match second_byte with | some b => hex2 b ++ " " | none => "")
        ++ (match third_byte with | some b => hex2 b ++ " " | none => "")
        ++ repeatString (3 - instruction_length) "   "
        ++ "   " ++ mnemonicColor text ++ text ++ COLOR_RESET
        ++ "\t" ++ joinOperandText additional_text abt ++ "\n"
  | .truncated address first_byte second_byte _ =>
    some (hex4 address ++ "  " ++ hex2 first_byte ++ " "
      ++ (match second_byte with | some b => hex2 b ++ " " | none => "") ++ "\n")

/-! ## The truncation failure message (`main.rs` lines 305-335)

The error value is
`anyhow!("instruction incomplete").context("reading ... byte of instruction \"{first_byte:02x}\"")`.
`.context` receives the string literal as-is: unlike `format!`, it
performs no inline interpolation, so the characters
`\x7bfirst_byte:02x\x7d` appear literally in the message. -/

/-- The context string passed to `.context(...)` when the `missing`-th
byte (2 or 3) was unavailable; the braces are the literal characters of
the Rust string literal. -/
def truncationContext (missing : Nat) : String :=
  if missing = 2 then
    "reading second byte of instruction \"\x7bfirst_byte:02x\x7d\""
  else
    "reading third byte of instruction \"\x7bfirst_byte:02x\x7d\""

/-- The full stderr line of the `error!` macro (lines 24-30): the
colored `error:` prefix, then the `{:?}` rendering of the anyhow error
(context first, root cause under `Caused by:`). -/
def truncationStderr (missing : Nat) : String :=
  COLOR_RED ++ COLOR_BOLD ++ "error:" ++ COLOR_RESET ++ " "
    ++ truncationContext missing
    ++ "\n\nCaused by:\n    instruction incomplete\n"

/-! ## Sanity checks on concrete inputs -/

example : opcodeTable 0x09 = (1, "DAB", "D") := by decide

example : opcodeTable 0xFF = (1, "RST", "7") := by decide

example : hex4 0x43 = "0043" ∧ hex2 0x7F = "7f" ∧ hex4 0x10000 = "10000" := by decide

example : decodePass [0x3E, 0x7F] =
    [Item.record 0 0x3E (some 0x7F) none 2 "MVI" "A"] := by decide

example : decodePass [0x01] = [Item.truncated 0 0x01 none 2] := by decide

example : decodePass [0x21, 0x34] = [Item.truncated 0 0x21 (some 0x34) 3] := by decide

example : decodePass [] = [] := by decide

example : Item.operandText (Item.record 0 0x3E (some 0x7F) none 2 "MVI" "A")
    = some ("A," ++ COLOR_PURPLE ++ "#0x7f" ++ COLOR_RESET) := by decide

example : renderItem (Item.record 0 0x09 none none 1 "DAB" "D")
    = some ("0000  09          " ++ COLOR_RED ++ "DAB" ++ COLOR_RESET ++ "\tD\n") := by
  decide

/-! ## Helper lemmas -/

/-- Every table entry in the `u8` domain declares length 1, 2 or 3. -/
lemma opcode_len_cases : ∀ b, b < 256 →
    ((opcodeTable b).1 = 1 ∨ (opcodeTable b).1 = 2 ∨ (opcodeTable b).1 = 3) := by
  decide

lemma recordsOf_cons_record (a f : Nat) (s t : Option Nat) (len : Nat)
    (tx ad : String) (items : List Item) :
    recordsOf (Item.record a f s t len tx ad :: items)
      = Item.record a f s t len tx ad :: recordsOf items := by
  simp [recordsOf, List.filter, Item.isRecord]

lemma sumLengths_cons (it : Item) (items : List Item) :
    sumLengths (it :: items) = it.instructionLength + sumLengths items := by
  simp [sumLengths]


lemma sumLengths_nil : sumLengths [] = 0 := rfl

/-! Step equations of the decode loop, one per branch of the Rust
iteration. -/

lemma decodeLoop_cons_one (f : Nat) (rest : List Nat) (a : Nat)
    (h : ¬ (opcodeTable f).1 > 1) :
    decodeLoop (f :: rest) a
      = Item.record a f none none (opcodeTable f).1 (opcodeTable f).2.1
          (opcodeTable f).2.2
        :: decodeLoop rest (a + 1) := by
  rw [decodeLoop.eq_def]
  simp [h]

lemma decodeLoop_single_trunc (f a : Nat) (h : (opcodeTable f).1 > 1) :
    decodeLoop [f] a = [Item.truncated a f none 2] := by
  rw [decodeLoop.eq_def]
  simp [h]

lemma decodeLoop_cons_two (f second_byte : Nat) (rest2 : List Nat) (a : Nat)
    (h : (opcodeTable f).1 > 1) (h' : ¬ (opcodeTable f).1 > 2) :
    decodeLoop (f :: second_byte :: rest2) a
      = Item.record a f (some second_byte) none (opcodeTable f).1
          (opcodeTable f).2.1 (opcodeTable f).2.2
        :: decodeLoop rest2 (a + 2) := by
  rw [decodeLoop.eq_def]
  simp [h, h']

lemma decodeLoop_pair_trunc (f second_byte a : Nat) (h : (opcodeTable f).1 > 2) :
    decodeLoop [f, second_byte] a
      = [Item.truncated a f (some second_byte) 3] := by
  have h1 : (opcodeTable f).1 > 1 := by omega
  rw [decodeLoop.eq_def]
  simp [h, h1]

lemma decodeLoop_cons_three (f second_byte third_byte : Nat) (rest3 : List Nat)
    (a : Nat) (h : (opcodeTable f).1 > 2) :
    decodeLoop (f :: second_byte :: third_byte :: rest3) a
      = Item.record a f (some second_byte) (some third_byte) (opcodeTable f).1
          (opcodeTable f).2.1 (opcodeTable f).2.2
        :: decodeLoop rest3 (a + 3) := by
  have h1 : (opcodeTable f).1 > 1 := by omega
  rw [decodeLoop.eq_def]
  simp [h, h1]

/-- Master invariant of the decode loop, by strong induction on the
length of the remaining image: (A) record addresses are the start
address plus the cumulative sum of the preceding declared lengths,
(B) a truncation-free pass consumes the image length exactly, and
(C) every item sits inside the image, renders without reaching a panic,
and a record's declared length is 1, 2 or 3. -/
lemma decodeLoop_master :
    ∀ (rom : List Nat) (a : Nat), (∀ b ∈ rom, b < 256) →
      (∀ i it, (recordsOf (decodeLoop rom a))[i]? = some it →
        it.address = a + sumLengths ((recordsOf (decodeLoop rom a)).take i))
      ∧ ((∀ it ∈ decodeLoop rom a, it.isRecord = true) →
        sumLengths (recordsOf (decodeLoop rom a)) = rom.length)
      ∧ (∀ it ∈ decodeLoop rom a, it.address < a + rom.length
          ∧ (renderItem it).isSome = true
          ∧ (it.isRecord = true → (it.instructionLength = 1 ∨
              it.instructionLength = 2 ∨ it.instructionLength = 3))) := by
  have H : ∀ (n : Nat) (rom : List Nat) (a : Nat), rom.length ≤ n →
      (∀ b ∈ rom, b < 256) →
      (∀ i it, (recordsOf (decodeLoop rom a))[i]? = some it →
        it.address = a + sumLengths ((recordsOf (decodeLoop rom a)).take i))
      ∧ ((∀ it ∈ decodeLoop rom a, it.isRecord = true) →
        sumLengths (recordsOf (decodeLoop rom a)) = rom.length)
      ∧ (∀ it ∈ decodeLoop rom a, it.address < a + rom.length
          ∧ (renderItem it).isSome = true
          ∧ (it.isRecord = true → (it.instructionLength = 1 ∨
              it.instructionLength = 2 ∨ it.instructionLength = 3))) := by
    intro n
    induction n with
    | zero =>
      intro rom a hn _
      have : rom = [] := List.length_eq_zero.mp (Nat.le_zero.mp hn)
      subst this
      refine ⟨?_, ?_, ?_⟩
      · intro i it h
        simp [decodeLoop, recordsOf] at h
      · intro _
        simp [decodeLoop, recordsOf, sumLengths]
      · intro it hit
        simp [decodeLoop] at hit
    | succ n ih =>
      intro rom a hn hb
      match rom with
      | [] =>
        refine ⟨?_, ?_, ?_⟩
        · intro i it h
          simp [decodeLoop, recordsOf] at h
        · intro _
          simp [decodeLoop, recordsOf, sumLengths]
        · intro it hit
          simp [decodeLoop] at hit
      | first_byte :: rest =>
        have hbf : first_byte < 256 := hb first_byte (by simp)
        rcases opcode_len_cases first_byte hbf with h1 | h2 | h3
        · -- one-byte instruction
          have hd := decodeLoop_cons_one first_byte rest a (by omega)
          have hrest := ih rest (a + 1) (by simp at hn; omega)
            (fun b hbm => hb b (by simp [hbm]))
          refine ⟨?_, ?_, ?_⟩
          · intro i it h
            rw [hd, recordsOf_cons_record] at h ⊢
            match i with
            | 0 =>
              simp only [List.getElem?_cons_zero, Option.some.injEq] at h
              subst h
              simp [Item.address, sumLengths_nil]
            | i + 1 =>
              simp only [List.getElem?_cons_succ] at h
              have := hrest.1 i it h
              simp only [List.take_succ_cons, sumLengths_cons,
                Item.instructionLength, h1]
              omega
          · intro hall
            rw [hd] at hall ⊢
            rw [recordsOf_cons_record, sumLengths_cons]
            have := hrest.2.1 (fun it hit => hall it (by simp [hit]))
            simp only [Item.instructionLength, h1, List.length_cons]
            omega
          · intro it hit
            rw [hd] at hit
            rcases List.mem_cons.mp hit with heq | hmem
            · subst heq
              refine ⟨by simp [Item.address], ?_, ?_⟩
              · simp [renderItem, additionalBytesText, h1]
              · intro _
                simp [Item.instructionLength, h1]
            · have := hrest.2.2 it hmem
              exact ⟨by simp at this ⊢; omega, this.2.1, this.2.2⟩
        · -- two-byte instruction
          match rest with
          | [] =>
            have hd := decodeLoop_single_trunc first_byte a (by omega)
            refine ⟨?_, ?_, ?_⟩
            · intro i it h
              rw [hd] at h
              simp [recordsOf, List.filter, Item.isRecord] at h
            · intro hall
              rw [hd] at hall
              have := hall (Item.truncated a first_byte none 2) (by simp)
              simp [Item.isRecord] at this
            · intro it hit
              rw [hd] at hit
              simp only [List.mem_singleton] at hit
              subst hit
              refine ⟨by simp [Item.address], by simp [renderItem], ?_⟩
              intro h
              simp [Item.isRecord] at h
          | second_byte :: rest2 =>
            have hd := decodeLoop_cons_two first_byte second_byte rest2 a
              (by omega) (by omega)
            have hrest := ih rest2 (a + 2) (by simp at hn; omega)
              (fun b hbm => hb b (by simp [hbm]))
            refine ⟨?_, ?_, ?_⟩
            · intro i it h
              rw [hd, recordsOf_cons_record] at h ⊢
              match i with
              | 0 =>
                simp only [List.getElem?_cons_zero, Option.some.injEq] at h
                subst h
                simp [Item.address, sumLengths_nil]
              | i + 1 =>
                simp only [List.getElem?_cons_succ] at h
                have := hrest.1 i it h
                simp only [List.take_succ_cons, sumLengths_cons,
                  Item.instructionLength, h2]
                omega
            · intro hall
              rw [hd] at hall ⊢
              rw [recordsOf_cons_record, sumLengths_cons]
              have := hrest.2.1 (fun it hit => hall it (by simp [hit]))
              simp only [Item.instructionLength, h2, List.length_cons]
              omega
            · intro it hit
              rw [hd] at hit
              rcases List.mem_cons.mp hit with heq | hmem
              · subst heq
                refine ⟨by simp [Item.address], ?_, ?_⟩
                · simp [renderItem, additionalBytesText, h2]
                · intro _
                  simp [Item.instructionLength, h2]
              · have := hrest.2.2 it hmem
                exact ⟨by simp at this ⊢; omega, this.2.1, this.2.2⟩
        · -- three-byte instruction
          match rest with
          | [] =>
            have hd := decodeLoop_single_trunc first_byte a (by omega)
            refine ⟨?_, ?_, ?_⟩
            · intro i it h
              rw [hd] at h
              simp [recordsOf, List.filter, Item.isRecord] at h
            · intro hall
              rw [hd] at hall
              have := hall (Item.truncated a first_byte none 2) (by simp)
              simp [Item.isRecord] at this
            · intro it hit
              rw [hd] at hit
              simp only [List.mem_singleton] at hit
              subst hit
              refine ⟨by simp [Item.address], by simp [renderItem], ?_⟩
              intro h
              simp [Item.isRecord] at h
          | [second_byte] =>
            have hd := decodeLoop_pair_trunc first_byte second_byte a (by omega)
            refine ⟨?_, ?_, ?_⟩
            · intro i it h
              rw [hd] at h
              simp [recordsOf, List.filter, Item.isRecord] at h
            · intro hall
              rw [hd] at hall
              have := hall (Item.truncated a first_byte (some second_byte) 3)
                (by simp)
              simp [Item.isRecord] at this
            · intro it hit
              rw [hd] at hit
              simp only [List.mem_singleton] at hit
              subst hit
              refine ⟨by simp [Item.address], by simp [renderItem], ?_⟩
              intro h
              simp [Item.isRecord] at h
          | second_byte :: third_byte :: rest3 =>
            have hd := decodeLoop_cons_three first_byte second_byte third_byte
              rest3 a (by omega)
            have hrest := ih rest3 (a + 3) (by simp at hn; omega)
              (fun b hbm => hb b (by simp [hbm]))
            refine ⟨?_, ?_, ?_⟩
            · intro i it h
              rw [hd, recordsOf_cons_record] at h ⊢
              match i with
              | 0 =>
                simp only [List.getElem?_cons_zero, Option.some.injEq] at h
                subst h
                simp [Item.address, sumLengths_nil]
              | i + 1 =>
                simp only [List.getElem?_cons_succ] at h
                have := hrest.1 i it h
                simp only [List.take_succ_cons, sumLengths_cons,
                  Item.instructionLength, h3]
                omega
            · intro hall
              rw [hd] at hall ⊢
              rw [recordsOf_cons_record, sumLengths_cons]
              have := hrest.2.1 (fun it hit => hall it (by simp [hit]))
              simp only [Item.instructionLength, h3, List.length_cons]
              omega
            · intro it hit
              rw [hd] at hit
              rcases List.mem_cons.mp hit with heq | hmem
              · subst heq
                refine ⟨by simp [Item.address], ?_, ?_⟩
                · simp [renderItem, additionalBytesText, h3]
                · intro _
                  simp [Item.instructionLength, h3]
              · have := hrest.2.2 it hmem
                exact ⟨by simp at this ⊢; omega, this.2.1, this.2.2⟩
  intro rom a hb
  exact H rom.length rom a (Nat.le_refl _) hb

/-! Length and character-set facts about the hex rendering. -/

lemma hexCharsAux_stable : ∀ (f g n : Nat), 0 < f → n < 16 ^ f → f ≤ g →
    hexCharsAux g n = hexCharsAux f n := by
  intro f
  induction f with
  | zero => omega
  | succ f ihf =>
    intro g n _ hlt hle
    obtain ⟨g', rfl⟩ : ∃ g', g = g' + 1 := ⟨g - 1, by omega⟩
    rw [hexCharsAux, hexCharsAux]
    by_cases hn : n < 16
    · simp [hn]
    · simp only [if_neg hn]
      have hf : 0 < f := by
        by_contra h0
        have : f = 0 := by omega
        subst this
        simp at hlt
        omega
      have hdiv : n / 16 < 16 ^ f := by
        rw [Nat.div_lt_iff_lt_mul (by norm_num)]
        calc n < 16 ^ (f + 1) := hlt
        _ = 16 ^ f * 16 := by rw [pow_succ]
      rw [ihf g' (n / 16) hf hdiv (by omega)]

lemma hexCharsAux_length : ∀ (f n : Nat), n < 16 ^ f →
    (hexCharsAux f n).length ≤ f := by
  intro f
  induction f with
  | zero => intro n _; simp [hexCharsAux]
  | succ f ihf =>
    intro n hlt
    rw [hexCharsAux]
    by_cases hn : n < 16
    · simp [hn]
    · simp only [if_neg hn]
      have hdiv : n / 16 < 16 ^ f := by
        rw [Nat.div_lt_iff_lt_mul (by norm_num)]
        calc n < 16 ^ (f + 1) := hlt
        _ = 16 ^ f * 16 := by rw [pow_succ]
      have := ihf (n / 16) hdiv
      simp only [List.length_append, List.length_singleton]
      omega

lemma digitChar_hex : ∀ m, m < 16 → isLowerHexDigit (Nat.digitChar m) = true := by
  decide

lemma hexCharsAux_all_hex : ∀ (f n : Nat),
    (hexCharsAux f n).all isLowerHexDigit = true := by
  intro f
  induction f with
  | zero => intro n; simp [hexCharsAux]
  | succ f ihf =>
    intro n
    rw [hexCharsAux]
    by_cases hn : n < 16
    · simp [hn, digitChar_hex n hn]
    · simp only [if_neg hn, List.all_append]
      simp [ihf (n / 16), digitChar_hex (n % 16) (Nat.mod_lt n (by norm_num))]

lemma hexChars_length_le (n : Nat) (hn : n < 65536) : (hexChars n).length ≤ 4 := by
  unfold hexChars
  by_cases h4 : 4 ≤ n + 1
  · rw [hexCharsAux_stable 4 (n + 1) n (by norm_num) (by norm_num; omega) h4]
    exact hexCharsAux_length 4 n (by norm_num; omega)
  · have hn16 : n < 16 := by omega
    rw [hexCharsAux_stable 1 (n + 1) n one_pos (by simpa using hn16) (by omega)]
    simp [hexCharsAux, hn16]

lemma hex4_length (n : Nat) (hn : n < 65536) : (hex4 n).length = 4 := by
  have := hexChars_length_le n hn
  simp only [hex4, hexPad, padZeroes, String.length, String.mk]
  simp only [List.length_append, List.length_replicate]
  omega

lemma hex4_all_hex (n : Nat) : (hex4 n).data.all isLowerHexDigit = true := by
  have h1 : (List.replicate (4 - (hexChars n).length) '0').all isLowerHexDigit = true := by
    simp only [List.all_eq_true]
    intro c hc
    rw [List.eq_of_mem_replicate hc]
    decide
  have h2 : (hexChars n).all isLowerHexDigit = true := hexCharsAux_all_hex (n + 1) n
  show (padZeroes 4 (hexChars n)).all isLowerHexDigit = true
  rw [padZeroes, List.all_append]
  simp [h1, h2]

/-- On an all-`NOP` image the loop emits one 1-byte record per byte. -/
lemma decodeLoop_replicate_nop : ∀ (n a : Nat),
    decodeLoop (List.replicate n 0) a
      = (List.range n).map (fun i => Item.record (a + i) 0 none none 1 "NOP" "") := by
  intro n
  induction n with
  | zero => intro a; simp [decodeLoop]
  | succ n ihn =>
    intro a
    rw [List.replicate_succ, decodeLoop_cons_one 0 _ a (by decide), ihn (a + 1),
      List.range_succ_eq_map]
    have ht : opcodeTable 0 = (1, "NOP", "") := rfl
    rw [List.map_cons, List.map_map, ht]
    congr 1
    simp
    intro i _
    omega

/-! ## Claim theorems -/

/-- C1: for every opcode byte value 0x00-0xFF the opcode table lookup
is defined — the table has one entry per byte value, with no fallback
needed inside the byte range — and the entry's declared instruction
length is 1, 2 or 3. -/
theorem c1_opcode_table_total (b : Nat) (hb : b < 256) :
    opcodeEntries.length = 256
    ∧ ((opcodeTable b).1 = 1 ∨ (opcodeTable b).1 = 2 ∨ (opcodeTable b).1 = 3) :=
  ⟨by decide, opcode_len_cases b hb⟩

theorem c1_witness :
    (198 : Nat) < 256
    ∧ (opcodeEntries.length = 256
      ∧ ((opcodeTable 198).1 = 1 ∨ (opcodeTable 198).1 = 2
          ∨ (opcodeTable 198).1 = 3)) :=
  ⟨by decide, c1_opcode_table_total 198 (by decide)⟩

/-- C2 (evaluation at the failing input): on the single-byte image
`[0x01]` the pass emits exactly one truncation failure and no record,
the failure being the last item — but the stderr message of the
`error!` call contains the literal placeholder text
`\x7bfirst_byte:02x\x7d` (because `.context` does not interpolate) and
names neither the opcode value `01` nor the address `0000`. -/
theorem c2_truncation_message :
    decodePass [0x01] = [Item.truncated 0 0x01 none 2]
    ∧ (Item.truncated 0 0x01 none 2).isRecord = false
    ∧ ¬ List.IsInfix "01".data (truncationStderr 2).data
    ∧ ¬ List.IsInfix "0000".data (truncationStderr 2).data
    ∧ List.IsInfix "\x7bfirst_byte:02x\x7d".data (truncationStderr 2).data := by
  decide

/-- C3: record addresses equal the cumulative sum of the lengths of the
preceding instructions, starting at 0, and a pass that completes
without truncation consumes exactly the image length. -/
theorem c3_addresses_and_conservation (rom : List Nat)
    (hb : ∀ b ∈ rom, b < 256) :
    (∀ i it, (decodeRecords rom)[i]? = some it →
      it.address = sumLengths ((decodeRecords rom).take i))
    ∧ (truncationFree rom → sumLengths (decodeRecords rom) = rom.length) := by
  have h := decodeLoop_master rom 0 hb
  constructor
  · intro i it hit
    have := h.1 i it hit
    simpa using this
  · intro htf
    exact h.2.1 htf

theorem c3_witness :
    Item.address (Item.record 2 0 none none 1 "NOP" "")
        = sumLengths ((decodeRecords [62, 127, 0]).take 1)
    ∧ sumLengths (decodeRecords [62, 127, 0]) = [62, 127, 0].length :=
  ⟨(c3_addresses_and_conservation [62, 127, 0] (by decide)).1 1
      (Item.record 2 0 none none 1 "NOP" "") (by decide),
   (c3_addresses_and_conservation [62, 127, 0] (by decide)).2 (by decide)⟩

/-- C4 counterexample: the image `[0x21, 0x34, 0x12]` does not decode
to operand text `$1234`: opcode 0x21 is `LXI` with template `H`, and
the synthesized text is wrapped in color escapes, so neither the
synthesized part nor the full operand field equals `$1234`. -/
theorem c4_counterexample :
    decodePass [0x21, 0x34, 0x12]
        = [Item.record 0 0x21 (some 0x34) (some 0x12) 3 "LXI" "H"]
    ∧ additionalBytesText 3 (some 0x34) (some 0x12) ≠ some "$1234"
    ∧ Item.operandText (Item.record 0 0x21 (some 0x34) (some 0x12) 3 "LXI" "H")
        ≠ some "$1234" := by
  decide

/-- C4 as amended: for a 3-byte instruction the synthesized operand
text is the blue escape, `$`, the third consumed byte in 2 hex digits,
the second consumed byte in 2 hex digits, and the reset escape
(big-endian display of the little-endian-stored operand); on
`[0x21, 0x34, 0x12]` the full operand field is the template `H` joined
by a comma to that synthesized text, with digits `1234`. -/
theorem c4_endianness_amended :
    (∀ second_byte third_byte : Nat,
      additionalBytesText 3 (some second_byte) (some third_byte)
        = some (COLOR_BLUE ++ "$" ++ hex2 third_byte ++ hex2 second_byte
            ++ COLOR_RESET))
    ∧ decodePass [0x21, 0x34, 0x12]
        = [Item.record 0 0x21 (some 0x34) (some 0x12) 3 "LXI" "H"]
    ∧ Item.operandText (Item.record 0 0x21 (some 0x34) (some 0x12) 3 "LXI" "H")
        = some ("H," ++ COLOR_BLUE ++ "$1234" ++ COLOR_RESET) :=
  ⟨fun _ _ => rfl, by decide, by decide⟩

/-- C5 counterexample: on the image `[0x3E, 0x7F]` the operand field is
not the plain text `A,#0x7f`: the synthesized immediate is wrapped in
the purple and reset escapes, so the field contains the escape
character. -/
theorem c5_counterexample :
    decodePass [0x3E, 0x7F] = [Item.record 0 0x3E (some 0x7F) none 2 "MVI" "A"]
    ∧ Item.operandText (Item.record 0 0x3E (some 0x7F) none 2 "MVI" "A")
        ≠ some "A,#0x7f"
    ∧ '\x1b' ∈ ((Item.operandText
        (Item.record 0 0x3E (some 0x7F) none 2 "MVI" "A")).getD "").data := by
  decide

/-- C5 as amended: `[0x3E, 0x7F]` decodes to mnemonic `MVI` and operand
text `A,` followed by the purple escape, `#0x7f`, and the reset escape
— the plain content is `A,#0x7f`, but the formatter embeds the
stylistic color escape sequences around the synthesized immediate. -/
theorem c5_immediate_amended :
    decodePass [0x3E, 0x7F] = [Item.record 0 0x3E (some 0x7F) none 2 "MVI" "A"]
    ∧ Item.operandText (Item.record 0 0x3E (some 0x7F) none 2 "MVI" "A")
        = some ("A," ++ COLOR_PURPLE ++ "#0x7f" ++ COLOR_RESET) := by
  decide

/-- C6: opcode values 0xC3 and 0xCB both decode to mnemonic `JMP` with
declared length 3 and empty operand template, and identical trailing
bytes give identical operand formatting. -/
theorem c6_jmp_alias :
    opcodeTable 0xC3 = (3, "JMP", "")
    ∧ opcodeTable 0xCB = (3, "JMP", "")
    ∧ ∀ (second_byte third_byte : Nat),
        (decodePass [0xC3, second_byte, third_byte]).map Item.operandText
          = (decodePass [0xCB, second_byte, third_byte]).map Item.operandText
        ∧ (decodePass [0xC3, second_byte, third_byte]).map Item.instructionLength
          = (decodePass [0xCB, second_byte, third_byte]).map
              Item.instructionLength :=
  ⟨by decide, by decide, fun _ _ => ⟨rfl, rfl⟩⟩

/-- C7 counterexample: on the 65537-byte all-`NOP` image the last
instruction sits at address 65536, which does not fit in 16 bits, and
its address field renders with 5 hex digits, not 4. -/
theorem c7_counterexample :
    (List.replicate 65537 (0 : Nat)).length = 65537
    ∧ (decodePass (List.replicate 65537 0))[65536]?
        = some (Item.record 65536 0 none none 1 "NOP" "")
    ∧ (hex4 (Item.address (Item.record 65536 0 none none 1 "NOP" ""))).length
        = 5 := by
  refine ⟨by rw [List.length_replicate], ?_, by decide⟩
  rw [decodePass, decodeLoop_replicate_nop 65537 0]
  rw [List.getElem?_map, List.getElem?_range (by norm_num)]
  simp

/-- C7 as amended: the record address is the unbounded byte index of
the opcode (a `usize`, not a `u16`), rendered in zero-padded lowercase
hex of width at least 4 — so for every image of at most 65536 bytes the
address field of every record is exactly 4 lowercase hex digits. -/
theorem c7_address_field_amended (rom : List Nat) (hb : ∀ b ∈ rom, b < 256)
    (hlen : rom.length ≤ 65536) :
    ∀ it ∈ decodePass rom, it.isRecord = true →
      (hex4 it.address).length = 4
      ∧ (hex4 it.address).data.all isLowerHexDigit = true := by
  intro it hit _
  have h := (decodeLoop_master rom 0 hb).2.2 it hit
  have ha : it.address < 65536 := by
    have := h.1
    omega
  exact ⟨hex4_length _ ha, hex4_all_hex _⟩

theorem c7_witness :
    (hex4 (Item.address (Item.record 0 0 none none 1 "NOP" ""))).length = 4
    ∧ (hex4 (Item.address (Item.record 0 0 none none 1 "NOP" ""))).data.all
        isLowerHexDigit = true :=
  c7_address_field_amended [0] (by decide) (by decide)
    (Item.record 0 0 none none 1 "NOP" "") (by decide) (by decide)

/-- C8: decoding is deterministic — the item sequence and the rendered
output are pure functions of the byte image, so two passes over the
same image are byte-identical. -/
theorem c8_deterministic (rom1 rom2 : List Nat) (h : rom1 = rom2) :
    (decodePass rom1).map renderItem = (decodePass rom2).map renderItem
    ∧ decodePass rom1 = decodePass rom2 := by
  subst h
  exact ⟨rfl, rfl⟩

theorem c8_witness :
    (decodePass [201]).map renderItem = (decodePass [201]).map renderItem
    ∧ decodePass [201] = decodePass [201] :=
  c8_deterministic [201] [201] rfl

/-- C9: the operand synthesis never reaches a failure branch — every
item of a pass over a byte image renders to `some` line (no
`unreachable!` arm, no `.unwrap()` panic), and every record's declared
length is 1, 2 or 3. -/
theorem c9_no_panic (rom : List Nat) (hb : ∀ b ∈ rom, b < 256) :
    ∀ it ∈ decodePass rom,
      (renderItem it).isSome = true
      ∧ (it.isRecord = true → (it.instructionLength = 1
          ∨ it.instructionLength = 2 ∨ it.instructionLength = 3)) := by
  intro it hit
  have h := (decodeLoop_master rom 0 hb).2.2 it hit
  exact ⟨h.2.1, h.2.2⟩

theorem c9_witness :
    (renderItem (Item.record 0 33 (some 52) (some 18) 3 "LXI" "H")).isSome = true
    ∧ ((Item.record 0 33 (some 52) (some 18) 3 "LXI" "H").instructionLength = 1
      ∨ (Item.record 0 33 (some 52) (some 18) 3 "LXI" "H").instructionLength = 2
      ∨ (Item.record 0 33 (some 52) (some 18) 3 "LXI" "H").instructionLength
          = 3) :=
  ⟨(c9_no_panic [33, 52, 18] (by decide)
      (Item.record 0 33 (some 52) (some 18) 3 "LXI" "H") (by decide)).1,
   (c9_no_panic [33, 52, 18] (by decide)
      (Item.record 0 33 (some 52) (some 18) 3 "LXI" "H") (by decide)).2 rfl⟩

/-- C10: the table maps byte 0x09 to the 1-byte entry with mnemonic
`DAB` and operand template `D` — not the canonical `DAD` with operand
`B` — and the image `[0x09]` decodes to exactly that mnemonic and
operand text. -/
theorem c10_dab_entry :
    opcodeTable 0x09 = (1, "DAB", "D")
    ∧ decodePass [0x09] = [Item.record 0 0x09 none none 1 "DAB" "D"]
    ∧ Item.operandText (Item.record 0 0x09 none none 1 "DAB" "D") = some "D"
    ∧ opcodeTable 0x09 ≠ (1, "DAD", "B") := by
  decide
